import Mathlib

/-!
# Verification of the Skill Discovery & Registry subsystem

Shallow embedding of `packages/agent-skills-mcp-py/main.py`.

Modelling conventions:

* Python strings are modelled as `String` at the interface and as `List Char`
  internally, because the Python string operations used by the code
  (`strip`, `split`, `startswith`, `replace`, `isalnum`, `islower`) are
  re-implemented here by structural recursion over the character list so
  that every definition evaluates by kernel reduction.
  Python character-class predicates (`isalnum`, `islower`, `isupper`) are
  modelled for ASCII characters; non-ASCII behaviour is out of scope.
* Filesystem paths handed to the discovery engine are modelled as lists of
  path components (`AbsPath`); `os.path` operations on such paths
  (`dirname`, `basename`, `relpath`, prefix tests) become list operations.
  The path-resolver (`parse_skills_paths`) works on raw strings, exactly
  as the source does.
* The filesystem itself is a list of `SkillFile` (path plus file content);
  `glob.glob(base + "/**/SKILL.md", recursive=True)` becomes a filter over
  that list, in list order (the OS enumeration order is abstracted).
  Reads always succeed in this model, so the `IOError` branch of the
  parser is unreachable here (constructor kept for completeness).
* Functions in the source that report failure by printing a diagnostic and
  returning `None` are modelled as `Except ParseError _`, with one error
  constructor per distinct diagnostic printed by the source.
-/

/-! ## Python string primitives (ASCII model) -/

/-- Python whitespace characters (`str.strip` default set). -/
def pyIsSpace (c : Char) : Bool :=
  c = ' ' || c = '\t' || c = '\n' || c = '\r' || c = Char.ofNat 11 || c = Char.ofNat 12

/-- Models Python `str.strip()`: remove leading and trailing whitespace. -/
def pyStrip (s : List Char) : List Char :=
  ((s.dropWhile pyIsSpace).reverse.dropWhile pyIsSpace).reverse

/-- Models Python `s.split(sep)` for a single-character separator `sep`. -/
def splitChar (sep : Char) : List Char → List (List Char)
  | [] => [[]]
  | c :: cs =>
    if c = sep then [] :: splitChar sep cs
    else
      match splitChar sep cs with
      | [] => [[c]]
      | g :: gs => (c :: g) :: gs

/-- First occurrence of `sep` in `s`: returns the part before it and the part
after it, or `none` when `sep` does not occur.  (Used to model Python
`str.split(sep, maxsplit)` for a multi-character separator.) -/
def splitFirst (sep : List Char) : List Char → Option (List Char × List Char)
  | [] => if sep.isEmpty then some ([], []) else none
  | c :: cs =>
    if sep.isPrefixOf (c :: cs) then some ([], (c :: cs).drop sep.length)
    else
      match splitFirst sep cs with
      | some (pre, post) => some (c :: pre, post)
      | none => none

/-- The front-matter delimiter `---` as a character list. -/
def dashes : List Char := ['-', '-', '-']

/-- Models Python `content.split("---", 2)`: at most two splits, at the two
leftmost occurrences of the separator. -/
def pySplitDashes2 (s : List Char) : List (List Char) :=
  match splitFirst dashes s with
  | none => [s]
  | some (a, r) =>
    match splitFirst dashes r with
    | none => [a, r]
    | some (b, r2) => [a, b, r2]

/-- Models Python `str.isalnum` for one ASCII character. -/
def pyIsAlnumChar (c : Char) : Bool :=
  c.isUpper || c.isLower || c.isDigit

/-- Models Python `str.isalnum`: non-empty and every character alphanumeric. -/
def pyIsAlnum (s : List Char) : Bool :=
  !s.isEmpty && s.all pyIsAlnumChar

/-- Models Python `str.islower`: at least one cased character, and every cased
character lowercase (cased = ASCII letter in this model). -/
def pyIsLower (s : List Char) : Bool :=
  s.any (fun c => c.isUpper || c.isLower) && s.all (fun c => !c.isUpper)

/-! ## Path resolver (`parse_skills_paths`) -/

/-- Models `os.path.expanduser` (POSIX) for the bare `~` marker: a leading `~`
or `~/...` is replaced by the home directory with trailing slashes stripped
(`/` when that leaves nothing); `~user` forms (named-user lookup) are left
unchanged, as CPython does when the user is unknown. -/
def pyExpanduser (home path : List Char) : List Char :=
  let stripped := (home.reverse.dropWhile (· = '/')).reverse
  if path = ['~'] then (if stripped.isEmpty then ['/'] else stripped)
  else if ['~', '/'].isPrefixOf path then stripped ++ path.drop 1
  else path

/-- Models `os.path.isabs` (POSIX): the path begins with `/`. -/
def pyIsAbs (path : List Char) : Bool :=
  path.head? = some '/'

/-- Models `os.path.join(cwd, p)` (POSIX) in the non-absolute case used by the
source: `p` is appended to `cwd`, inserting `/` unless `cwd` is empty or
already ends with `/`. -/
def pyJoin (cwd p : List Char) : List Char :=
  if pyIsAbs p then p
  else if cwd.isEmpty || cwd.getLast? = some '/' then cwd ++ p
  else cwd ++ '/' :: p

/-- The body of the per-entry work of `parse_skills_paths`: expand a leading
`~`, then resolve a relative path against the current working directory. -/
def resolve_path (home cwd : String) (path : List Char) : String :=
  let expanded := pyExpanduser home.data path
  if pyIsAbs expanded then String.mk expanded
  else String.mk (pyJoin cwd.data expanded)

/-- Embedding of `parse_skills_paths` (main.py lines 17-35).  `env_val` is the
value of the environment variable (`none` when unset), `default_path` the
second argument of `os.getenv`; the caller's home directory and working
directory are explicit parameters.  Mirrors the source loop:
split on commas, strip each entry, skip empty entries, expand and resolve
the rest, appending in input order. -/
def parse_skills_paths (env_val : Option String) (default_path home cwd : String) :
    List String :=
  let paths_str := env_val.getD default_path
  if paths_str = "" then []
  else
    (splitChar ',' paths_str.data).foldl
      (fun paths p =>
        let p := pyStrip p
        if p.isEmpty then paths else paths ++ [resolve_path home cwd p])
      []

/-! ## Front-matter schema (`SkillFrontmatter`) -/

/-- Embedding of the `SkillFrontmatter` pydantic model (main.py lines 38-57).
The optional `allowed_tools` / `metadata` fields are pure pass-through data
never consulted by any logic in the subsystem and are not modelled. -/
structure SkillFrontmatter where
  name : String
  description : String
  license : Option String
  deriving DecidableEq, Repr

/-- Embedding of `SkillFrontmatter.validate_name` (main.py lines 45-49) as a
Boolean: the source raises unless the check passes.  `v.replace("-", "")`
removes every hyphen, hence the filter. -/
def validate_name (v : String) : Bool :=
  !(v.data.isEmpty || !pyIsAlnum (v.data.filter (· ≠ '-')) || !pyIsLower v.data)

/-- Embedding of `SkillFrontmatter.validate_description` (main.py lines
51-57): at least 10 characters. -/
def validate_description (v : String) : Bool :=
  decide (10 ≤ v.data.length)

/-- Failure modes of `parse_skill`; one constructor per distinct diagnostic
printed by the source before it returns `None`.  `ioError` models a failed
file read (unreachable in this model, where contents are given). -/
inductive ParseError where
  | ioError
  | missingFrontmatter
  | incompleteFrontmatter
  | malformedFrontmatter
  | schemaViolation (field : String)
  | nameDirectoryMismatch (fmName dirName : String)
  deriving DecidableEq, Repr

/-- Models `yaml.safe_load` restricted to the flat scalar mappings a skill
front-matter uses: one `key: value` pair per non-blank line, the key before
the first colon, both sides stripped.  A non-blank line with no colon is a
structural YAML error (`none`). -/
def parseYaml (s : List Char) : Option (List (String × String)) :=
  ((splitChar '\n' s).filter (fun l => !(pyStrip l).isEmpty)).mapM
    (fun l =>
      match splitFirst [':'] l with
      | some (k, v) => some (String.mk (pyStrip k), String.mk (pyStrip v))
      | none => none)

/-- Models `SkillFrontmatter(**frontmatter_data)`: required fields must be
present and the field validators must pass; a violation names the failing
field, as the pydantic `ValueError` diagnostic does.  Unknown keys are
ignored (pydantic default). -/
def mkFrontmatter (pairs : List (String × String)) :
    Except ParseError SkillFrontmatter :=
  match pairs.lookup "name" with
  | none => .error (.schemaViolation "name")
  | some n =>
    if !validate_name n then .error (.schemaViolation "name")
    else
      match pairs.lookup "description" with
      | none => .error (.schemaViolation "description")
      | some d =>
        if !validate_description d then .error (.schemaViolation "description")
        else .ok { name := n, description := d, license := pairs.lookup "license" }

/-! ## Paths and the identifier generator -/

/-- An absolute filesystem path, as its list of components (no separators). -/
abbrev AbsPath := List String

/-- Models `os.path.dirname` on component lists: drop the final component. -/
def dirname (p : AbsPath) : AbsPath := p.dropLast

/-- Models `os.path.basename` on component lists: the final component
(`""` for the empty path, as in Python). -/
def basename (p : AbsPath) : String := p.getLastD ""

/-- Length of the longest common prefix of two component lists. -/
def commonPrefixLen : List String → List String → Nat
  | a :: as, b :: bs => if a = b then commonPrefixLen as bs + 1 else 0
  | _, _ => 0

/-- Models `os.path.relpath(p, base)` for normalized absolute component
paths: strip the common prefix, prepend one `..` per remaining component of
`base`, and answer `.` when nothing is left. -/
def relpath (p base : AbsPath) : AbsPath :=
  let k := commonPrefixLen p base
  let r := List.replicate (base.length - k) ".." ++ p.drop k
  if r.isEmpty then ["."] else r

/-- Character-level model of `"_".join(components).replace("-", "_")`. -/
def joinUnderscore (components : List String) : String :=
  String.mk ((List.intercalate ['_'] (components.map String.data)).map
    (fun c => if c = '-' then '_' else c))

/-- Embedding of `generate_tool_name` (main.py lines 73-78): the directory
part of the manifest path relative to the discovery root, `.` components
discarded, joined with `_`, hyphens replaced, prefixed with `skills_`.
(On the string level an empty directory part splits to `[""]` and joins
back to `""`; on component lists it is simply `[]`, with the same join.) -/
def generate_tool_name (skill_path base_dir : AbsPath) : String :=
  let rel_path := relpath skill_path base_dir
  let dir_path := dirname rel_path
  let components := dir_path.filter (· ≠ ".")
  "skills_" ++ joinUnderscore components

/-! ## Manifest parser (`parse_skill`) -/

/-- Embedding of the registry entry `Skill` (main.py lines 60-70), with paths
as component lists; `allowed_tools` / `metadata` as in `SkillFrontmatter`. -/
structure Skill where
  name : String
  full_path : AbsPath
  tool_name : String
  description : String
  license : Option String
  content : String
  path : AbsPath
  location : String
  deriving DecidableEq, Repr

/-- Steps 1-5 of `parse_skill` (main.py lines 88-112): delimiter checks,
front-matter split, YAML parse and schema validation, returning the
validated front-matter together with the stripped body. -/
def extract_frontmatter (content : String) :
    Except ParseError (SkillFrontmatter × List Char) :=
  if !dashes.isPrefixOf content.data then .error .missingFrontmatter
  else
    let parts := pySplitDashes2 content.data
    if parts.length < 3 then .error .incompleteFrontmatter
    else
      let frontmatter_str := pyStrip (parts.getD 1 [])
      let markdown_content := pyStrip (parts.getD 2 [])
      match parseYaml frontmatter_str with
      | none => .error .malformedFrontmatter
      | some pairs =>
        match mkFrontmatter pairs with
        | .error e => .error e
        | .ok fm => .ok (fm, markdown_content)

/-- Embedding of `parse_skill` (main.py lines 81-142): front-matter
extraction, the name/parent-directory check, then construction of the
`Skill` record.  `location` reproduces
`"project" if skill_path.startswith(cwd) else "global"`, with the string
prefix test becoming a component-prefix test. -/
def parse_skill (content : String) (skill_path base_dir cwd : AbsPath) :
    Except ParseError Skill :=
  match extract_frontmatter content with
  | .error e => .error e
  | .ok (fm, markdown_content) =>
    let skill_dir := basename (dirname skill_path)
    if fm.name ≠ skill_dir then .error (.nameDirectoryMismatch fm.name skill_dir)
    else
      .ok { name := fm.name
            full_path := dirname skill_path
            tool_name := generate_tool_name skill_path base_dir
            description := fm.description
            license := fm.license
            content := String.mk markdown_content
            path := skill_path
            location := if cwd.isPrefixOf skill_path then "project" else "global" }

/-! ## Discovery engine (`discover_skills`) -/

/-- One file of the modelled filesystem: an absolute path and its content. -/
structure SkillFile where
  path : AbsPath
  content : String
  deriving DecidableEq, Repr

/-- A path component that `glob` treats as hidden (leading dot). -/
def isHidden (c : String) : Bool := c.data.head? = some '.'

/-- Models `glob.glob(os.path.join(base, "**/SKILL.md"), recursive=True)`:
every file named `SKILL.md` at any depth under `base` (including directly in
`base`), skipping hidden intermediate directories, in filesystem list order. -/
def glob_skill_files (fs : List SkillFile) (base : AbsPath) : List SkillFile :=
  fs.filter (fun f =>
    base.isPrefixOf f.path && f.path.getLastD "" == "SKILL.md" &&
      ((f.path.drop base.length).dropLast).all (fun c => !isHidden c))

/-- Embedding of `discover_skills` (main.py lines 145-169): `cwd` is the
first base path (`""`, here the empty path, when there are none); every
root is scanned in order and the parsed skills are concatenated.  The
`os.path.exists` guard and the per-root `try` only affect logging: in this
model a missing or unreadable root simply contributes no files. -/
def discover_skills (fs : List SkillFile) (base_paths : List AbsPath) : List Skill :=
  let cwd := base_paths.headD []
  (base_paths.map (fun base =>
    (glob_skill_files fs base).filterMap
      (fun f => (parse_skill f.content f.path base cwd).toOption))).flatten

/-- Embedding of the duplicate-detection pass of `discover_skills` (main.py
lines 171-181): walk the aggregate list keeping a set of seen `tool_name`s
(modelled as a duplicate-free list); every repeat is appended to the
duplicates list that the aggregate warning prints.  The pass is purely
diagnostic: the skill list itself is returned unchanged by the source. -/
def duplicate_tool_names (skills : List Skill) : List String :=
  (skills.foldl
    (fun (acc : List String × List String) skill =>
      if skill.tool_name ∈ acc.1 then (acc.1, acc.2 ++ [skill.tool_name])
      else (acc.1 ++ [skill.tool_name], acc.2))
    ([], [])).2

/-- Embedding of the path combination in `initialize_skills` (main.py line
241): global paths first, then project paths. -/
def all_skills_paths (global_paths project_paths : List AbsPath) : List AbsPath :=
  global_paths ++ project_paths

/-! ## Registry (`get_skills`, `skills`) -/

/-- The diagnostic of the `RuntimeError` raised by `get_skills`. -/
def notInitializedMsg : String :=
  "Skills not initialized. Call initialize_skills() first."

/-- Embedding of `get_skills` (main.py lines 247-251): the skills cache is
`none` before initialization, in which case the call raises. -/
def get_skills (cache : Option (List Skill)) : Except String (List Skill) :=
  match cache with
  | none => .error notInitializedMsg
  | some l => .ok l

/-- The linear lookup inside the `skills` tool (main.py line 258):
first stored skill whose `name` equals the command exactly. -/
def skills_find (l : List Skill) (command : String) : Option Skill :=
  l.find? (fun s => s.name == command)

/-- The registered names, in stored order (main.py line 261). -/
def available_names (l : List Skill) : List String := l.map (·.name)

/-- The not-found message of the `skills` tool (main.py line 262). -/
def not_found_message (command : String) (names : List String) : String :=
  "Skill \"" ++ command ++ "\" not found. Available skills: " ++
    String.mk (List.intercalate (", ".data) (names.map String.data))

/-- Renders a path back to a POSIX string for the reply text. -/
def pathToString (p : AbsPath) : String :=
  "/" ++ String.mk (List.intercalate ['/'] (p.map String.data))

/-- The reply of the `skills` tool for a found skill (main.py lines 266-275). -/
def skill_reply (command : String) (skill : Skill) : String :=
  "<command-message>The \"" ++ command ++ "\" skill is running</command-message>\n" ++
  "<command-name>" ++ command ++ "</command-name>\n\n# " ++ command ++
  " Skill information\n\nBase directory for this skill: " ++
  pathToString skill.full_path ++ "\n\nSkill Content:\n\n" ++ skill.content

/-- Embedding of the body of the `skills` tool (main.py lines 254-275),
given the skill list obtained from `get_skills`. -/
def skills_tool (l : List Skill) (command : String) : String :=
  match skills_find l command with
  | some skill => skill_reply command skill
  | none => not_found_message command (available_names l)

/-- The full `skills` tool including the `get_skills` cache access: before
initialization the `RuntimeError` of `get_skills` propagates. -/
def skills_tool_full (cache : Option (List Skill)) (command : String) :
    Except String String :=
  match get_skills cache with
  | .error e => .error e
  | .ok l => .ok (skills_tool l command)

/-! ## Concrete fixtures used by closed theorems -/

/-- A valid manifest for a skill named `pdf` (front-matter plus body). -/
def pdfManifest : String :=
  "---\nname: pdf\ndescription: 0123456789\n---\nBody text"

/-- Formalisation of the spec's wording for the `name` rule, for comparison
with the code's `validate_name`: "non-empty, lowercase, and composed only of
alphanumeric characters and hyphens", reading "lowercase" as "contains no
uppercase character". -/
def spec_name_accepts (v : String) : Bool :=
  !v.data.isEmpty && v.data.all (fun c => pyIsAlnumChar c || c = '-') &&
    v.data.all (fun c => !c.isUpper)

/-- Fixture skill records used by closed witnesses: a skill as produced by
`parse_skill` for a manifest `a` under root `r`. -/
def skillA : Skill :=
  { name := "a", full_path := ["r", "a"], tool_name := "skills_a"
    description := "0123456789", license := none, content := "A body"
    path := ["r", "a", "SKILL.md"], location := "project" }

/-- Second fixture skill, named `b`. -/
def skillB : Skill :=
  { name := "b", full_path := ["r", "b"], tool_name := "skills_b"
    description := "0123456789", license := none, content := "B body"
    path := ["r", "b", "SKILL.md"], location := "global" }

/-! ## Helper lemmas -/

/-- `isPrefixOf` holds on an initial segment. -/
theorem isPrefixOf_append_self (l xs : List String) :
    l.isPrefixOf (l ++ xs) = true := by
  induction l with
  | nil => simp
  | cons a as ih => simp [List.isPrefixOf, ih]

/-- The common prefix of `root ++ xs` and `root` is all of `root`. -/
theorem commonPrefixLen_append_self (root xs : List String) :
    commonPrefixLen (root ++ xs) root = root.length := by
  induction root with
  | nil => cases xs <;> rfl
  | cons a as ih => simp [commonPrefixLen, ih]

/-- `relpath` of a path under its base is the remainder of the path. -/
theorem relpath_append_self (root xs : List String) (h : xs ≠ []) :
    relpath (root ++ xs) root = xs := by
  unfold relpath
  rw [commonPrefixLen_append_self]
  simp [List.drop_left, h]

/-- The tool name of a manifest under a root depends only on the relative
directory chain, not on the root. -/
theorem generate_tool_name_append_self (root rel : List String) :
    generate_tool_name (root ++ (rel ++ ["SKILL.md"])) root =
      "skills_" ++ joinUnderscore (rel.filter (· ≠ ".")) := by
  unfold generate_tool_name dirname
  rw [relpath_append_self _ _ (by simp)]
  simp [List.dropLast_concat]

/-- Appending the fold step of `parse_skills_paths` equals mapping the
resolver over the stripped, non-empty entries. -/
theorem foldl_resolve_append (home cwd : String) (l : List (List Char))
    (acc : List String) :
    l.foldl
      (fun paths p =>
        let p := pyStrip p
        if p.isEmpty then paths else paths ++ [resolve_path home cwd p]) acc =
    acc ++ ((l.map pyStrip).filter (fun p => !p.isEmpty)).map
      (resolve_path home cwd) := by
  induction l generalizing acc with
  | nil => simp
  | cons x xs ih =>
    rw [List.foldl_cons, ih, List.map_cons, List.filter_cons]
    by_cases h : (pyStrip x).isEmpty
    · simp [h]
    · simp [h]

/-! ## C10 -/

/-- C10: a manifest directly inside a discovery root gets the bare
identifier `skills_` with no path components, so any two roots that each
directly contain a manifest yield colliding identifiers. -/
theorem tool_name_at_root_is_bare (root other : List String) :
    generate_tool_name (root ++ ["SKILL.md"]) root = "skills_" ∧
    generate_tool_name (root ++ ["SKILL.md"]) root =
      generate_tool_name (other ++ ["SKILL.md"]) other := by
  have h : ∀ r : List String, generate_tool_name (r ++ ["SKILL.md"]) r = "skills_" := by
    intro r
    have h0 := generate_tool_name_append_self r []
    simp only [List.nil_append] at h0
    rw [h0]
    rfl
  exact ⟨h root, (h root).trans (h other).symm⟩

/-! ## C1 -/

/-- C1 (code bug evaluation): location classification uses the first path of
the combined root list, which is the first *global* root whenever global
roots exist — not the first project root.  With global root `/g` and project
root `/p`, a skill under `/g` is classified `project`; with no project roots
at all it is still classified `project`, not `global`. -/
theorem location_follows_first_combined_root :
    (discover_skills [⟨["g", "pdf", "SKILL.md"], pdfManifest⟩]
        (all_skills_paths [["g"]] [["p"]])).map (·.location) = ["project"] ∧
    (discover_skills [⟨["g", "pdf", "SKILL.md"], pdfManifest⟩]
        (all_skills_paths [["g"]] [])).map (·.location) = ["project"] :=
  ⟨rfl, rfl⟩

/-! ## C2 -/

/-- C2 counterexample: the resolver does not de-duplicate.  The input list
`"a,a"` resolves to the same directory twice and both occurrences are kept,
so the output is not duplicate-free. -/
theorem resolver_keeps_duplicates_cex :
    parse_skills_paths (some "a,a") ".skills/" "/home/u" "/w" = ["/w/a", "/w/a"] ∧
    ¬ (parse_skills_paths (some "a,a") ".skills/" "/home/u" "/w").Nodup := by
  constructor
  · rfl
  · decide

/-- C2 amended: for a non-empty configured value the resolver returns exactly
the trimmed, non-empty entries in input order, each expanded and resolved —
duplicates are preserved, each occurrence at its input position. -/
theorem parse_skills_paths_eq_map_filter (env_val : Option String)
    (d home cwd : String) (h : env_val.getD d ≠ "") :
    parse_skills_paths env_val d home cwd =
      (((splitChar ',' (env_val.getD d).data).map pyStrip).filter
        (fun p => !p.isEmpty)).map (resolve_path home cwd) := by
  unfold parse_skills_paths
  rw [if_neg h]
  simpa using foldl_resolve_append home cwd (splitChar ',' (env_val.getD d).data) []

/-- Witness for the amended C2 theorem at a concrete input. -/
theorem parse_skills_paths_eq_map_filter_witness :
    ((some "a, a" : Option String).getD ".skills/" ≠ "") ∧
    parse_skills_paths (some "a, a") ".skills/" "/home/u" "/w" =
      (((splitChar ',' ((some "a, a" : Option String).getD ".skills/").data).map
        pyStrip).filter (fun p => !p.isEmpty)).map (resolve_path "/home/u" "/w") :=
  ⟨by decide,
   parse_skills_paths_eq_map_filter (some "a, a") ".skills/" "/home/u" "/w" (by decide)⟩

/-! ## C3 -/

/-- C3 counterexample: when the configuration value is present but equal to
the empty string, the resolver returns the empty sequence — it does not fall
back to the default. -/
theorem resolver_empty_env_cex :
    parse_skills_paths (some "") "~/.skills/" "/home/u" "/w" = [] := rfl

/-- C3 amended: an absent configuration value falls back to the default (the
result is exactly that of supplying the default), and for both shipped
defaults the result is the single resolved default path; a configuration
value that is the empty string, however, yields the empty sequence. -/
theorem parse_skills_paths_default_fallback (d home cwd : String) :
    parse_skills_paths none d home cwd = parse_skills_paths (some d) d home cwd ∧
    parse_skills_paths (some "") d home cwd = [] ∧
    parse_skills_paths none "~/.skills/" home cwd =
      [resolve_path home cwd "~/.skills/".data] ∧
    parse_skills_paths none ".skills/" home cwd =
      [resolve_path home cwd ".skills/".data] :=
  ⟨rfl, rfl, rfl, rfl⟩

/-! ## C9 -/

/-- C9: calling the lookup tool before the registry cache is initialized
raises the `NotInitialized` runtime error in every case; `get_skills` never
returns any list (in particular not a silent empty one) in that state. -/
theorem lookup_before_init_not_initialized (command : String) :
    skills_tool_full none command = .error notInitializedMsg ∧
    ∀ l : List Skill, get_skills none ≠ .ok l :=
  ⟨rfl, fun _ h => by simp [get_skills] at h⟩

/-- A file whose parse fails at every root contributes nothing to discovery:
removing it from the filesystem leaves the discovered skill list unchanged,
whatever the scanned roots are. -/
theorem discover_skills_drop (f : SkillFile) (fs1 fs2 : List SkillFile)
    (roots : List AbsPath)
    (h : ∀ base cwd, (parse_skill f.content f.path base cwd).toOption = none) :
    discover_skills (fs1 ++ f :: fs2) roots = discover_skills (fs1 ++ fs2) roots := by
  unfold discover_skills
  dsimp only
  congr 1
  refine List.map_congr_left ?_
  intro base _
  simp only [glob_skill_files, List.filter_append, List.filter_cons,
    List.filterMap_append]
  split
  · simp [List.filterMap_cons, h base _]
  · rfl

/-! ## C8 -/

/-- C8: a candidate file whose content does not begin with the front-matter
delimiter fails with `MissingFrontmatter` and contributes zero entries to the
registry: discovery over a filesystem containing it equals discovery over
the filesystem without it, for every set of roots, so the remaining
candidates are scanned unaffected. -/
theorem missing_frontmatter_drops_file (content : String)
    (skill_path base_dir cwd : AbsPath)
    (h : dashes.isPrefixOf content.data = false) :
    parse_skill content skill_path base_dir cwd = .error .missingFrontmatter ∧
    ∀ fs1 fs2 roots,
      discover_skills (fs1 ++ ⟨skill_path, content⟩ :: fs2) roots =
        discover_skills (fs1 ++ fs2) roots := by
  have hp : ∀ b c, parse_skill content skill_path b c = .error .missingFrontmatter := by
    intro b c
    unfold parse_skill extract_frontmatter
    simp [h]
  exact ⟨hp _ _, fun fs1 fs2 roots =>
    discover_skills_drop _ _ _ _ (fun b c => by simp [hp b c, Except.toOption])⟩

/-- Witness for the C8 theorem at a concrete input: a body with no opening
delimiter is rejected and discovery behaves as if the file were absent. -/
theorem missing_frontmatter_drops_file_witness :
    parse_skill "name: pdf" ["g", "pdf", "SKILL.md"] ["g"] ["g"] =
      .error .missingFrontmatter ∧
    discover_skills [⟨["g", "pdf", "SKILL.md"], "name: pdf"⟩] [["g"]] =
      discover_skills [] [["g"]] := by
  have h := missing_frontmatter_drops_file "name: pdf" ["g", "pdf", "SKILL.md"]
    ["g"] ["g"] (by decide)
  exact ⟨h.1, h.2 [] [] [["g"]]⟩

/-! ## C7 -/

/-- C7: a manifest whose validated front-matter name differs from the name of
its immediate parent directory fails with the name/directory-mismatch
diagnostic and is dropped: discovery with the file present equals discovery
with it absent, for every filesystem split and every set of roots, so the
scan continues and other candidates are unaffected. -/
theorem name_mismatch_drops_skill (content : String) (fm : SkillFrontmatter)
    (md : List Char) (skill_path base_dir cwd : AbsPath)
    (hex : extract_frontmatter content = .ok (fm, md))
    (hne : fm.name ≠ basename (dirname skill_path)) :
    parse_skill content skill_path base_dir cwd =
      .error (.nameDirectoryMismatch fm.name (basename (dirname skill_path))) ∧
    ∀ fs1 fs2 roots,
      discover_skills (fs1 ++ ⟨skill_path, content⟩ :: fs2) roots =
        discover_skills (fs1 ++ fs2) roots := by
  have hp : ∀ b c, parse_skill content skill_path b c =
      .error (.nameDirectoryMismatch fm.name (basename (dirname skill_path))) := by
    intro b c
    unfold parse_skill
    rw [hex]
    simp [hne]
  exact ⟨hp _ _, fun fs1 fs2 roots =>
    discover_skills_drop _ _ _ _ (fun b c => by simp [hp b c, Except.toOption])⟩

/-- Witness for the C7 theorem at a concrete input: a valid `pdf` manifest
placed in a directory named `docx` is rejected with the mismatch diagnostic
and discovery ignores it. -/
theorem name_mismatch_drops_skill_witness :
    parse_skill pdfManifest ["g", "docx", "SKILL.md"] ["g"] ["g"] =
      .error (.nameDirectoryMismatch "pdf" "docx") ∧
    discover_skills [⟨["g", "docx", "SKILL.md"], pdfManifest⟩] [["g"]] =
      discover_skills [] [["g"]] := by
  have h := name_mismatch_drops_skill pdfManifest
    { name := "pdf", description := "0123456789", license := none }
    "Body text".data ["g", "docx", "SKILL.md"] ["g"] ["g"] rfl (by decide)
  exact ⟨h.1, h.2 [] [] [["g"]]⟩

/-! ## C4 -/

/-- An ASCII lowercase letter is not uppercase. -/
theorem isLower_not_isUpper (c : Char) (h : c.isLower = true) : c.isUpper = false := by
  simp [Char.isLower, Char.isUpper, UInt32.le_def, UInt32.lt_def,
    BitVec.le_def, BitVec.lt_def] at *
  omega

/-- An ASCII digit is neither uppercase nor lowercase. -/
theorem isDigit_not_cased (c : Char) (h : c.isDigit = true) :
    c.isUpper = false ∧ c.isLower = false := by
  simp [Char.isDigit, Char.isUpper, Char.isLower, UInt32.le_def, UInt32.lt_def,
    BitVec.le_def, BitVec.lt_def] at *
  omega

/-- C4 counterexample: the all-digit string `"123"` satisfies the spec's
wording (non-empty, no uppercase characters, only alphanumerics and hyphens)
but the code's validator rejects it, because Python `islower()` demands at
least one cased character. -/
theorem validate_name_digits_cex :
    spec_name_accepts "123" = true ∧ validate_name "123" = false := by decide

/-- C4 amended: the validator accepts exactly the strings whose characters
are all ASCII lowercase letters, digits or hyphens and which contain at
least one lowercase letter. -/
theorem validate_name_characterization (v : String) :
    validate_name v = true ↔
      ((∀ c ∈ v.data, (c.isLower || c.isDigit || c = '-') = true) ∧
        ∃ c ∈ v.data, c.isLower = true) := by
  simp only [validate_name, pyIsAlnum, pyIsLower, pyIsAlnumChar,
    Bool.not_eq_true', Bool.not_eq_false', Bool.or_eq_false_iff,
    Bool.and_eq_true, List.all_eq_true, List.any_eq_true,
    List.isEmpty_eq_false, List.isEmpty_eq_true, List.mem_filter, Bool.or_eq_true,
    decide_eq_true_eq]
  constructor
  · rintro ⟨⟨hne, hfne, hfal⟩, ⟨c0, hc0, hcase⟩, hupper⟩
    have hc0low : c0.isLower = true := by
      rcases hcase with h | h
      · rw [hupper c0 hc0] at h; exact absurd h (by simp)
      · exact h
    refine ⟨?_, c0, hc0, hc0low⟩
    intro c hc
    by_cases hd : c = '-'
    · exact Or.inr hd
    · rcases hfal c ⟨hc, hd⟩ with (h | h) | h
      · rw [hupper c hc] at h; exact absurd h (by simp)
      · exact Or.inl (Or.inl h)
      · exact Or.inl (Or.inr h)
  · rintro ⟨hall, c0, hc0, hlow⟩
    have hupper : ∀ c ∈ v.data, c.isUpper = false := by
      intro c hc
      rcases hall c hc with (h | h) | h
      · exact isLower_not_isUpper c h
      · exact (isDigit_not_cased c h).1
      · rw [h]; decide
    have hc0d : c0 ≠ '-' := fun h => by rw [h] at hlow; exact absurd hlow (by decide)
    refine ⟨⟨List.ne_nil_of_mem hc0, ?_, ?_⟩, ⟨c0, hc0, Or.inr hlow⟩, hupper⟩
    · have hmem : c0 ∈ List.filter (fun x => decide (x ≠ '-')) v.data :=
        List.mem_filter.mpr ⟨hc0, by simp [hc0d]⟩
      exact List.ne_nil_of_mem hmem
    · intro x hx
      rcases hall x hx.1 with (h | h) | h
      · exact Or.inl (Or.inr h)
      · exact Or.inr h
      · exact absurd h hx.2

/-! ## C5 -/

/-- C5: the lookup is the first stored skill whose name equals the query
exactly (no partial matching); with no match, the tool answers with the
not-found message built from the full list of registered names, and the
operation is total. -/
theorem skills_find_first_and_not_found (l : List Skill) (q : String) :
    (∀ s, skills_find l q = some s →
      s.name = q ∧ ∃ i : Nat, l[i]? = some s ∧
        ∀ j, j < i → ∀ t : Skill, l[j]? = some t → t.name ≠ q) ∧
    (skills_find l q = none →
      (∀ s ∈ l, s.name ≠ q) ∧
      skills_tool l q = not_found_message q (available_names l) ∧
      ∀ s ∈ l, s.name ∈ available_names l) := by
  constructor
  · induction l with
    | nil => intro s h; simp [skills_find] at h
    | cons x xs ih =>
      intro s h
      by_cases hx : x.name = q
      · have hfind : skills_find (x :: xs) q = some x := by
          simp [skills_find, List.find?_cons_of_pos, hx]
        rw [hfind] at h
        obtain rfl : x = s := by simpa using h
        refine ⟨hx, 0, List.getElem?_cons_zero, ?_⟩
        intro j hj
        exact absurd hj (Nat.not_lt_zero j)
      · have hstep : skills_find (x :: xs) q = skills_find xs q := by
          simp [skills_find, List.find?_cons_of_neg, hx]
        rw [hstep] at h
        obtain ⟨hname, i, hi, hfirst⟩ := ih s h
        refine ⟨hname, i + 1, by rw [List.getElem?_cons_succ]; exact hi, ?_⟩
        intro j hj t ht
        cases j with
        | zero =>
          rw [List.getElem?_cons_zero] at ht
          obtain rfl : x = t := Option.some.inj ht
          exact hx
        | succ k =>
          refine hfirst k (Nat.lt_of_succ_lt_succ hj) t ?_
          rwa [List.getElem?_cons_succ] at ht
  · intro h
    have hnone := h
    rw [skills_find, List.find?_eq_none] at hnone
    refine ⟨fun s hs => by simpa using hnone s hs, ?_,
      fun s hs => List.mem_map_of_mem _ hs⟩
    simp [skills_tool, h]

/-- Witness for the C5 theorem: in the registry `[skillA, skillB]`, querying
`"b"` yields the second skill and nothing earlier matches; querying `"c"`
yields the not-found message over both registered names. -/
theorem skills_find_first_and_not_found_witness :
    (skillB.name = "b" ∧ ∃ i : Nat, [skillA, skillB][i]? = some skillB ∧
      ∀ j, j < i → ∀ t : Skill, [skillA, skillB][j]? = some t → t.name ≠ "b") ∧
    ((∀ s ∈ [skillA, skillB], s.name ≠ "c") ∧
      skills_tool [skillA, skillB] "c" =
        not_found_message "c" (available_names [skillA, skillB]) ∧
      ∀ s ∈ [skillA, skillB], s.name ∈ available_names [skillA, skillB]) :=
  ⟨(skills_find_first_and_not_found [skillA, skillB] "b").1 skillB (by decide),
   (skills_find_first_and_not_found [skillA, skillB] "c").2 (by decide)⟩

/-! ## C6 -/

/-- The parent-directory name of a manifest under a root is the last
component of the relative directory chain. -/
theorem basename_dirname_append (root rel : List String) (h : rel ≠ []) :
    basename (dirname (root ++ (rel ++ ["SKILL.md"]))) = rel.getLastD "" := by
  unfold basename dirname
  rw [← List.append_assoc, List.dropLast_concat]
  rw [List.getLastD_eq_getLast?, List.getLastD_eq_getLast?, List.getLast?_append]
  obtain ⟨a, ha⟩ := Option.isSome_iff_exists.mp (List.getLast?_isSome.mpr h)
  rw [ha]
  rfl

/-- `parse_skill` succeeds on a manifest with valid front-matter whose name
matches the leaf directory, producing the fully determined skill record. -/
theorem parse_skill_ok_of (content : String) (fm : SkillFrontmatter) (md : List Char)
    (root rel : List String) (cwd : AbsPath)
    (hex : extract_frontmatter content = .ok (fm, md))
    (hrel : rel ≠ [])
    (hname : fm.name = rel.getLastD "") :
    parse_skill content (root ++ (rel ++ ["SKILL.md"])) root cwd =
      .ok { name := fm.name
            full_path := root ++ rel
            tool_name := "skills_" ++ joinUnderscore (rel.filter (· ≠ "."))
            description := fm.description
            license := fm.license
            content := String.mk md
            path := root ++ (rel ++ ["SKILL.md"])
            location := if cwd.isPrefixOf (root ++ (rel ++ ["SKILL.md"])) then
              "project" else "global" } := by
  unfold parse_skill
  rw [hex]
  dsimp only
  rw [basename_dirname_append root rel hrel, ← hname]
  rw [if_neg (by simp)]
  rw [generate_tool_name_append_self]
  unfold dirname
  rw [← List.append_assoc, List.dropLast_concat]

/-- Bridge from the Boolean prefix test to the prefix relation. -/
theorem not_prefix_of_isPrefixOf_false (l1 l2 : List String)
    (h : l1.isPrefixOf l2 = false) : ¬ l1 <+: l2 := by
  rintro ⟨t, rfl⟩
  rw [isPrefixOf_append_self] at h
  exact absurd h (by simp)

/-- The glob condition holds for a manifest under its own root whose
intermediate directories are not hidden. -/
theorem glob_cond_under (root rel : List String)
    (hvis : rel.all (fun c => !isHidden c) = true) :
    (root.isPrefixOf (root ++ (rel ++ ["SKILL.md"])) &&
      (root ++ (rel ++ ["SKILL.md"])).getLastD "" == "SKILL.md" &&
      (((root ++ (rel ++ ["SKILL.md"])).drop root.length).dropLast).all
        (fun c => !isHidden c)) = true := by
  rw [isPrefixOf_append_self]
  rw [List.drop_left]
  rw [← List.append_assoc, List.getLastD_concat, List.dropLast_concat, hvis]
  simp

/-- Discovery over two roots each holding a valid manifest with the same
relative directory chain finds both skills, in root order. -/
theorem discover_two_roots (rootA rootB rel : List String) (cA cB : String)
    (fmA fmB : SkillFrontmatter) (mA mB : List Char)
    (hA : extract_frontmatter cA = .ok (fmA, mA))
    (hB : extract_frontmatter cB = .ok (fmB, mB))
    (hrel : rel ≠ [])
    (hvis : rel.all (fun c => !isHidden c) = true)
    (hnA : fmA.name = rel.getLastD "")
    (hnB : fmB.name = rel.getLastD "")
    (hsepA : rootA.isPrefixOf (rootB ++ (rel ++ ["SKILL.md"])) = false)
    (hsepB : rootB.isPrefixOf (rootA ++ (rel ++ ["SKILL.md"])) = false) :
    discover_skills
        [⟨rootA ++ (rel ++ ["SKILL.md"]), cA⟩, ⟨rootB ++ (rel ++ ["SKILL.md"]), cB⟩]
        [rootA, rootB] =
      [{ name := fmA.name
         full_path := rootA ++ rel
         tool_name := "skills_" ++ joinUnderscore (rel.filter (· ≠ "."))
         description := fmA.description
         license := fmA.license
         content := String.mk mA
         path := rootA ++ (rel ++ ["SKILL.md"])
         location := "project" },
       { name := fmB.name
         full_path := rootB ++ rel
         tool_name := "skills_" ++ joinUnderscore (rel.filter (· ≠ "."))
         description := fmB.description
         license := fmB.license
         content := String.mk mB
         path := rootB ++ (rel ++ ["SKILL.md"])
         location := "global" }] := by
  have hpA := parse_skill_ok_of cA fmA mA rootA rel rootA hA hrel hnA
  have hpB := parse_skill_ok_of cB fmB mB rootB rel rootA hB hrel hnB
  simp only [isPrefixOf_append_self, if_true] at hpA
  simp only [hsepA, Bool.false_eq_true, if_false] at hpB
  have hvis' : ∀ x ∈ rel, isHidden x = false := by simpa using hvis
  have hsepA' : ¬ rootA <+: rootB ++ (rel ++ ["SKILL.md"]) :=
    not_prefix_of_isPrefixOf_false _ _ hsepA
  have hsepB' : ¬ rootB <+: rootA ++ (rel ++ ["SKILL.md"]) :=
    not_prefix_of_isPrefixOf_false _ _ hsepB
  unfold discover_skills
  dsimp only [List.headD]
  unfold glob_skill_files
  simp [List.filter_cons, List.filter_nil, hsepA', hsepB']
  rw [if_pos hvis', if_pos hvis']
  simp [hpA, hpB, Except.toOption]

/-- C6: two manifests with identical relative directory structure under two
different roots are both discovered, the identifier generator assigns both
the same derived identifier, and the duplicate-identifier pass produces
exactly one warning entry naming that identifier.  (The pass is diagnostic
only: `duplicate_tool_names` is a separate function of the already-built
list, which it does not modify.) -/
theorem duplicate_tool_name_across_roots
    (rootA rootB rel : List String) (cA cB : String)
    (fmA fmB : SkillFrontmatter) (mA mB : List Char)
    (hA : extract_frontmatter cA = .ok (fmA, mA))
    (hB : extract_frontmatter cB = .ok (fmB, mB))
    (hrel : rel ≠ [])
    (hvis : rel.all (fun c => !isHidden c) = true)
    (hnA : fmA.name = rel.getLastD "")
    (hnB : fmB.name = rel.getLastD "")
    (hsepA : rootA.isPrefixOf (rootB ++ (rel ++ ["SKILL.md"])) = false)
    (hsepB : rootB.isPrefixOf (rootA ++ (rel ++ ["SKILL.md"])) = false) :
    (discover_skills
        [⟨rootA ++ (rel ++ ["SKILL.md"]), cA⟩, ⟨rootB ++ (rel ++ ["SKILL.md"]), cB⟩]
        [rootA, rootB]).map (·.tool_name) =
      ["skills_" ++ joinUnderscore (rel.filter (· ≠ ".")),
       "skills_" ++ joinUnderscore (rel.filter (· ≠ "."))] ∧
    duplicate_tool_names
        (discover_skills
          [⟨rootA ++ (rel ++ ["SKILL.md"]), cA⟩, ⟨rootB ++ (rel ++ ["SKILL.md"]), cB⟩]
          [rootA, rootB]) =
      ["skills_" ++ joinUnderscore (rel.filter (· ≠ "."))] := by
  rw [discover_two_roots rootA rootB rel cA cB fmA fmB mA mB hA hB hrel hvis hnA hnB
    hsepA hsepB]
  constructor
  · rfl
  · unfold duplicate_tool_names
    simp [List.foldl]

/-- Witness for the C6 theorem: `rootA/tools/pdf/SKILL.md` and
`rootB/tools/pdf/SKILL.md` collide on `skills_tools_pdf` and the duplicate
list names it exactly once. -/
theorem duplicate_tool_name_across_roots_witness :
    (discover_skills
        [⟨["a", "tools", "pdf", "SKILL.md"], pdfManifest⟩,
         ⟨["b", "tools", "pdf", "SKILL.md"], pdfManifest⟩]
        [["a"], ["b"]]).map (·.tool_name) =
      ["skills_tools_pdf", "skills_tools_pdf"] ∧
    duplicate_tool_names
        (discover_skills
          [⟨["a", "tools", "pdf", "SKILL.md"], pdfManifest⟩,
           ⟨["b", "tools", "pdf", "SKILL.md"], pdfManifest⟩]
          [["a"], ["b"]]) = ["skills_tools_pdf"] :=
  duplicate_tool_name_across_roots ["a"] ["b"] ["tools", "pdf"] pdfManifest pdfManifest
    { name := "pdf", description := "0123456789", license := none }
    { name := "pdf", description := "0123456789", license := none }
    "Body text".data "Body text".data rfl rfl (by decide) (by decide) rfl rfl
    (by decide) (by decide)
